import Mathlib

/-!
Shallow embedding of the real-time chat backend in `app.py`: the in-memory
presence registry (`ACTIVE_USERS`, `USERNAME_TO_SID`), the Socket.IO event
handlers (`on_join_app`, `on_disconnect`, `on_send_message`, `on_typing`),
the direct-message room naming (`direct_room`), and the message history page
endpoint (`api_messages`).  Python dictionaries are embedded as association
lists with last-write-wins insertion; Socket.IO emissions are embedded as
explicit event lists.
-/

namespace FlaskChat

/-- Python `dict` lookup `m.get(k)` on an association list. -/
def dictGet {β : Type} (m : List (String × β)) (k : String) : Option β :=
  match m with
  | [] => none
  | (k', v) :: rest => if k' = k then some v else dictGet rest k

/-- Removal of every binding of key `k` (used by `dict.pop(k, None)`). -/
def dictRemove {β : Type} (m : List (String × β)) (k : String) : List (String × β) :=
  match m with
  | [] => []
  | (k', v) :: rest => if k' = k then dictRemove rest k else (k', v) :: dictRemove rest k

/-- Python `dict` assignment `m[k] = v`: the new binding shadows any old one. -/
def dictInsert {β : Type} (m : List (String × β)) (k : String) (v : β) : List (String × β) :=
  (k, v) :: dictRemove m k

/-- The key set of an embedded dictionary, as a list (`m.keys()`). -/
def dictKeys {β : Type} (m : List (String × β)) : List String :=
  m.map Prod.fst

/-- Python's code-point comparison `a < b` of strings, on the char lists
(lexicographic, comparing characters by code point). -/
def pyLtChars : List Char → List Char → Bool
  | [], [] => false
  | [], _ :: _ => true
  | _ :: _, [] => false
  | a :: as, b :: bs =>
    if a < b then true else if b < a then false else pyLtChars as bs

/-- Python's `a <= b` on strings: not `b < a`. -/
def pyLe (a b : String) : Bool := ! pyLtChars b.data a.data

/-- Python's `str.strip()`: drop leading and trailing whitespace characters. -/
def pyStrip (s : String) : String :=
  ⟨((s.data.dropWhile Char.isWhitespace).reverse.dropWhile Char.isWhitespace).reverse⟩

/-- An outbound Socket.IO event, as emitted by the handlers in `app.py`. -/
inductive Event where
  | userList : List String → Event
  | systemMessage : String → Event
  | newMessage : Nat → String → String → String → Nat → Event
  | typing : String → Bool → Event
deriving DecidableEq, Repr

/-- The server's in-memory connection state: `ACTIVE_USERS` (sid → username),
`USERNAME_TO_SID` (username → sid), and the Socket.IO room membership table
(room → member sids), which `flask_socketio` keeps on the server's behalf. -/
structure ChatState where
  activeUsers : List (String × String)
  usernameToSid : List (String × String)
  rooms : List (String × List String)
deriving DecidableEq, Repr

/-- `sorted(list(USERNAME_TO_SID.keys()))` in `broadcast_user_list`, sorting
by Python's string comparison. -/
def sortedUsernames (m : List (String × String)) : List String :=
  List.insertionSort (fun a b => pyLe a b = true) (dictKeys m)

/-- The usernames currently shown as online (spec §4.1 `list_usernames()`):
the sorted key set of `USERNAME_TO_SID`. -/
def list_usernames (s : ChatState) : List String :=
  sortedUsernames s.usernameToSid

/-- `broadcast_user_list()`: the `user_list` event carrying the sorted usernames. -/
def broadcast_user_list (s : ChatState) : Event :=
  Event.userList (list_usernames s)

/-- `on_join_app` (app.py lines 176-190): if the payload's `username` is falsy
(absent or empty) the event is ignored; otherwise the socket id is bound to the
username in both presence maps and the user list is broadcast. -/
def on_join_app (s : ChatState) (sid : String) (dataUsername : Option String) :
    ChatState × List Event :=
  match dataUsername with
  | none => (s, [])
  | some username =>
    if username = "" then (s, [])
    else
      let s' := { s with
        activeUsers := dictInsert s.activeUsers sid username,
        usernameToSid := dictInsert s.usernameToSid username sid }
      (s', [broadcast_user_list s'])

/-- Modelled from the spec: `leave_all(connection)` removes the connection from
every room it belongs to.  On disconnect this is performed by `flask_socketio`
itself (the room bookkeeping lives in the library, not in `app.py`). -/
def leave_all (rooms : List (String × List String)) (sid : String) :
    List (String × List String) :=
  rooms.map (fun p => (p.1, p.2.filter (· ≠ sid)))

/-- `members_of(room)`: the current member sids of a room, empty if unknown.
The table itself is `flask_socketio`'s; the accessor follows the spec's §4.2. -/
def members_of (s : ChatState) (room : String) : List String :=
  (dictGet s.rooms room).getD []

/-- `on_disconnect` (app.py lines 192-199) together with the library's own
room cleanup: pop the sid's forward mapping; pop the reverse mapping only when
it still points at this sid; drop the sid from every room; broadcast the list. -/
def on_disconnect (s : ChatState) (sid : String) : ChatState × List Event :=
  let username := dictGet s.activeUsers sid
  let activeUsers' := dictRemove s.activeUsers sid
  let usernameToSid' :=
    match username with
    | some u =>
      if u ≠ "" ∧ dictGet s.usernameToSid u = some sid then
        dictRemove s.usernameToSid u
      else s.usernameToSid
    | none => s.usernameToSid
  let s' : ChatState :=
    { activeUsers := activeUsers', usernameToSid := usernameToSid',
      rooms := leave_all s.rooms sid }
  (s', [broadcast_user_list s'])

/-- `direct_room` (app.py lines 132-147): the deterministic DM room name,
`f"dm_\x7bpair[0]\x7d_\x7bpair[1]\x7d"` after `pair = sorted([me, other])`. -/
def direct_room (me other : String) : String :=
  let pair := if pyLe me other then (me, other) else (other, me)
  "dm_" ++ pair.1 ++ "_" ++ pair.2

/-- A persisted chat message (the `Message` model; timestamps are embedded as
naturals ordered like the model's UTC datetimes). -/
structure Msg where
  id : Nat
  room : String
  sender : String
  text : String
  timestamp : Nat
deriving DecidableEq, Repr

/-- The message table plus the autoincrement id counter the database keeps. -/
structure Store where
  messages : List Msg
  nextId : Nat
deriving DecidableEq, Repr

/-- `on_send_message` (app.py lines 230-258): validate `room`, stripped `text`
and `sender`; try to persist; on failure roll back and return without emitting;
on success emit `new_message` to the room.  `storeOk` embeds whether the
underlying store is available (`db.session.commit()` succeeds); the emitted
list pairs the target room with the event. -/
def on_send_message (store : Store) (storeOk : Bool) (now : Nat)
    (dataRoom dataText dataSender : Option String) :
    Store × List (String × Event) :=
  let text := pyStrip (dataText.getD "")
  match dataRoom, dataSender with
  | some room, some sender =>
    if room = "" ∨ text = "" ∨ sender = "" then (store, [])
    else if storeOk then
      let msg : Msg := { id := store.nextId, room := room, sender := sender,
                         text := text, timestamp := now }
      ({ messages := store.messages ++ [msg], nextId := store.nextId + 1 },
       [(room, Event.newMessage msg.id msg.room msg.sender msg.text msg.timestamp)])
    else (store, [])
  | _, _ => (store, [])

/-- `on_typing` (app.py lines 260-270) with the spec's `to_room_except`
semantics for `include_self=False` (the delivery itself is `flask_socketio`'s):
the typing event goes to every member of the room except the emitting sid.
The result pairs each recipient sid with the event it receives. -/
def on_typing (s : ChatState) (sid : String) (dataRoom dataSender : Option String)
    (dataTyping : Bool) : List (String × Event) :=
  match dataRoom, dataSender with
  | some room, some sender =>
    if room ≠ "" ∧ sender ≠ "" then
      ((members_of s room).filter (· ≠ sid)).map
        (fun c => (c, Event.typing sender dataTyping))
    else []
  | _, _ => []

/-- `ORDER BY timestamp DESC` of the messages query, embedded as a sort that
puts larger timestamps first. -/
def newestFirst (msgs : List Msg) : List Msg :=
  List.insertionSort (fun (a b : Msg) => b.timestamp ≤ a.timestamp) msgs

/-- `api_messages` (app.py lines 150-164): filter the table by room; when a
non-empty `before` query parameter is supplied, try to parse it and filter
`timestamp < before`, silently ignoring a parse failure (`except: pass`);
order newest-first, take `limit`, and reverse into chronological order.
`datetime.fromisoformat` is external, so the parser is a parameter. -/
def api_messages (parseIso : String → Option Nat) (msgs : List Msg)
    (room : String) (limit : Nat) (before : Option String) : List Msg :=
  let q := msgs.filter (fun m => m.room = room)
  let q :=
    match before with
    | none => q
    | some b =>
      if b = "" then q
      else
        match parseIso b with
        | some t => q.filter (fun m => m.timestamp < t)
        | none => q
  ((newestFirst q).take limit).reverse

/-- A sample timestamp parser used to instantiate the page theorems on
concrete inputs: it accepts exactly the string `"T5"`, as time `5`. -/
def demoParse (s : String) : Option Nat :=
  if s = "T5" then some 5 else none

/-- A sample message table used to instantiate the page theorems. -/
def demoMsgs : List Msg :=
  [⟨1, "general", "alice", "hi", 1⟩, ⟨2, "general", "bob", "yo", 6⟩,
   ⟨3, "lobby", "eve", "x", 2⟩, ⟨4, "general", "alice", "again", 3⟩]

end FlaskChat

namespace FlaskChat

theorem dictGet_insert_self {β : Type} (m : List (String × β)) (k : String) (v : β) :
    dictGet (dictInsert m k v) k = some v := by
  simp [dictInsert, dictGet]

theorem dictGet_remove_ne {β : Type} (m : List (String × β)) {k k' : String}
    (h : k' ≠ k) : dictGet (dictRemove m k) k' = dictGet m k' := by
  induction m with
  | nil => rfl
  | cons p rest ih =>
    obtain ⟨a, b⟩ := p
    by_cases hak : a = k
    · have hkk' : ¬ k = k' := fun hh => h hh.symm
      simp [dictRemove, dictGet, hak, hkk', ih]
    · by_cases hak' : a = k'
      · simp [dictRemove, dictGet, hak, hak', h, ih]
      · simp [dictRemove, dictGet, hak, hak', ih]

theorem dictGet_remove_self {β : Type} (m : List (String × β)) (k : String) :
    dictGet (dictRemove m k) k = none := by
  induction m with
  | nil => rfl
  | cons p rest ih =>
    obtain ⟨a, b⟩ := p
    by_cases hak : a = k
    · simp [dictRemove, hak, ih]
    · simp [dictRemove, dictGet, hak, ih]

theorem dictGet_insert_ne {β : Type} (m : List (String × β)) {k k' : String} (v : β)
    (h : k' ≠ k) : dictGet (dictInsert m k v) k' = dictGet m k' := by
  simp only [dictInsert, dictGet, if_neg (Ne.symm h)]
  exact dictGet_remove_ne m h

theorem dictKeys_cons {β : Type} (a : String) (b : β) (rest : List (String × β)) :
    dictKeys ((a, b) :: rest) = a :: dictKeys rest := rfl

theorem mem_dictKeys_remove {β : Type} (m : List (String × β)) (k k' : String) :
    k' ∈ dictKeys (dictRemove m k) ↔ k' ∈ dictKeys m ∧ k' ≠ k := by
  induction m with
  | nil => simp [dictRemove, dictKeys]
  | cons p rest ih =>
    obtain ⟨a, b⟩ := p
    by_cases hak : a = k
    · simp only [dictRemove, if_pos hak, ih, dictKeys_cons, List.mem_cons]
      constructor
      · rintro ⟨h1, h2⟩
        exact ⟨Or.inr h1, h2⟩
      · rintro ⟨h1 | h1, h2⟩
        · exact absurd (h1.trans hak) h2
        · exact ⟨h1, h2⟩
    · simp only [dictRemove, if_neg hak, dictKeys_cons, List.mem_cons, ih]
      constructor
      · rintro (h1 | ⟨h1, h2⟩)
        · exact ⟨Or.inl h1, fun hh => hak (h1.symm.trans hh)⟩
        · exact ⟨Or.inr h1, h2⟩
      · rintro ⟨h1 | h1, h2⟩
        · exact Or.inl h1
        · exact Or.inr ⟨h1, h2⟩

theorem mem_dictKeys_of_get {β : Type} {m : List (String × β)} {k : String} {v : β}
    (h : dictGet m k = some v) : k ∈ dictKeys m := by
  induction m with
  | nil => simp [dictGet] at h
  | cons p rest ih =>
    obtain ⟨a, b⟩ := p
    by_cases hak : a = k
    · simp [dictKeys, hak]
    · simp only [dictGet, if_neg hak] at h
      simp [dictKeys]
      exact Or.inr (by simpa [dictKeys] using ih h)

theorem get_isSome_of_mem_dictKeys {β : Type} {m : List (String × β)} {k : String}
    (h : k ∈ dictKeys m) : (dictGet m k).isSome := by
  induction m with
  | nil => simp [dictKeys] at h
  | cons p rest ih =>
    obtain ⟨a, b⟩ := p
    by_cases hak : a = k
    · simp [dictGet, hak]
    · simp only [dictKeys, List.map_cons, List.mem_cons] at h
      rcases h with h | h
      · exact absurd h.symm hak
      · simpa [dictGet, hak] using ih (by simpa [dictKeys] using h)

theorem mem_sortedUsernames {m : List (String × String)} {u : String} :
    u ∈ sortedUsernames m ↔ u ∈ dictKeys m := by
  simp [sortedUsernames, List.mem_insertionSort]

end FlaskChat

namespace FlaskChat

theorem pyLtChars_asymm : ∀ {l1 l2 : List Char},
    pyLtChars l1 l2 = true → pyLtChars l2 l1 = false := by
  intro l1
  induction l1 with
  | nil =>
    intro l2 h
    cases l2 <;> simp [pyLtChars] at h ⊢
  | cons a as ih =>
    intro l2 h
    cases l2 with
    | nil => simp [pyLtChars] at h
    | cons b bs =>
      simp only [pyLtChars] at h ⊢
      by_cases hab : a < b
      · simp [hab, lt_asymm hab]
      · by_cases hba : b < a
        · simp [hab, hba] at h
        · simp [hab, hba] at h ⊢
          exact ih h

theorem eq_of_pyLtChars_false : ∀ {l1 l2 : List Char},
    pyLtChars l1 l2 = false → pyLtChars l2 l1 = false → l1 = l2 := by
  intro l1
  induction l1 with
  | nil =>
    intro l2 h1 h2
    cases l2 <;> simp [pyLtChars] at h1 ⊢
  | cons a as ih =>
    intro l2 h1 h2
    cases l2 with
    | nil => simp [pyLtChars] at h2
    | cons b bs =>
      simp only [pyLtChars] at h1 h2
      by_cases hab : a < b
      · simp [hab] at h1
      · by_cases hba : b < a
        · simp [hab, hba] at h2
        · simp [hab, hba] at h1 h2
          have hc : a = b := le_antisymm (not_lt.mp hba) (not_lt.mp hab)
          rw [hc, ih h1 h2]

theorem pyLe_of_not_pyLe {a b : String} (h : ¬ pyLe a b = true) : pyLe b a = true := by
  simp only [pyLe, Bool.not_eq_true, Bool.not_eq_false] at h
  have h' : pyLtChars b.data a.data = true := by
    simpa using h
  simp [pyLe, pyLtChars_asymm h']

theorem dictGet_leave_all (rooms : List (String × List String)) (sid room : String) :
    dictGet (leave_all rooms sid) room
      = (dictGet rooms room).map (fun l => l.filter (· ≠ sid)) := by
  induction rooms with
  | nil => rfl
  | cons p rest ih =>
    obtain ⟨a, b⟩ := p
    by_cases h : a = room
    · simp [leave_all, dictGet, h]
    · simp only [leave_all, List.map_cons, dictGet, h, if_neg h]
      simpa [leave_all] using ih

theorem pairwise_newestFirst (l : List Msg) :
    List.Pairwise (fun a b : Msg => b.timestamp ≤ a.timestamp) (newestFirst l) := by
  haveI : IsTotal Msg (fun a b : Msg => b.timestamp ≤ a.timestamp) :=
    ⟨fun a b => Nat.le_total _ _⟩
  haveI : IsTrans Msg (fun a b : Msg => b.timestamp ≤ a.timestamp) :=
    ⟨fun a b c hab hbc => le_trans hbc hab⟩
  exact List.sorted_insertionSort _ l

end FlaskChat

namespace FlaskChat

/-- Claim C1: last-registration-wins.  For distinct connections `c1`, `c2` and
a (non-empty) username `u`, after `c1` registers `u`, then `c2` registers `u`,
and then `c1` disconnects, `u` is still present in the user list: `c1`'s
unregister only removes the reverse mapping when it still points at `c1`
itself, so it does not evict `c2`'s mapping. -/
theorem reregistered_username_survives_first_unregister (s : ChatState)
    (c1 c2 u : String) (hc : c1 ≠ c2) (hu : u ≠ "") :
    u ∈ list_usernames
      (on_disconnect (on_join_app (on_join_app s c1 (some u)).1 c2 (some u)).1 c1).1 := by
  have h2 : (on_join_app (on_join_app s c1 (some u)).1 c2 (some u)).1
      = { s with activeUsers := dictInsert (dictInsert s.activeUsers c1 u) c2 u,
                 usernameToSid := dictInsert (dictInsert s.usernameToSid u c1) u c2 } := by
    simp [on_join_app, hu]
  have hgA : dictGet (dictInsert (dictInsert s.activeUsers c1 u) c2 u) c1 = some u := by
    rw [dictGet_insert_ne _ u hc, dictGet_insert_self]
  have hgR : dictGet (dictInsert (dictInsert s.usernameToSid u c1) u c2) u = some c2 :=
    dictGet_insert_self _ _ _
  have h3 : (on_disconnect (on_join_app (on_join_app s c1 (some u)).1 c2
        (some u)).1 c1).1.usernameToSid
      = dictInsert (dictInsert s.usernameToSid u c1) u c2 := by
    rw [h2]
    simp [on_disconnect, hgA, hgR, Ne.symm hc]
  rw [list_usernames, h3]
  exact mem_sortedUsernames.mpr (mem_dictKeys_of_get hgR)

/-- Claim C1, witness: the scenario at concrete inputs, starting from the
empty server state. -/
theorem reregistered_username_survives_first_unregister_witness :
    ("conn1" ≠ "conn2" ∧ "alice" ≠ "") ∧
    "alice" ∈ list_usernames
      (on_disconnect (on_join_app (on_join_app ⟨[], [], []⟩ "conn1" (some "alice")).1
        "conn2" (some "alice")).1 "conn1").1 :=
  ⟨⟨by decide, by decide⟩,
   reregistered_username_survives_first_unregister ⟨[], [], []⟩ "conn1" "conn2" "alice"
     (by decide) (by decide)⟩

/-- Claim C2: processing the disconnect event unregisters the connection in
the presence registry (its forward mapping is gone), removes it from the
member set of every room (`leave_all`), and broadcasts the updated user
list; afterwards no room's `members_of` contains the connection. -/
theorem disconnect_unregisters_and_leaves_all_rooms (s : ChatState) (sid : String) :
    dictGet (on_disconnect s sid).1.activeUsers sid = none ∧
    (∀ room, sid ∉ members_of (on_disconnect s sid).1 room) ∧
    (on_disconnect s sid).2 = [Event.userList (list_usernames (on_disconnect s sid).1)] := by
  refine ⟨dictGet_remove_self _ _, ?_, rfl⟩
  intro room hmem
  have hrooms : (on_disconnect s sid).1.rooms = leave_all s.rooms sid := rfl
  rw [members_of, hrooms, dictGet_leave_all] at hmem
  rcases hg : dictGet s.rooms room with _ | l
  · rw [hg] at hmem
    simp at hmem
  · rw [hg] at hmem
    simp [List.mem_filter] at hmem

/-- Claim C3: atomicity of send on persistence failure.  When the store is
unavailable (`storeOk = false`, the `db.session.commit()` raises), the send
handler broadcasts nothing, the store is returned unchanged, and no event of
any kind — in particular no error — is emitted to anyone. -/
theorem send_message_store_failure_is_atomic (store : Store) (now : Nat)
    (dataRoom dataText dataSender : Option String) :
    on_send_message store false now dataRoom dataText dataSender = (store, []) := by
  unfold on_send_message
  cases dataRoom <;> cases dataSender <;> simp

/-- Claim C4, counterexample: a register event with the whitespace-only
username `" "` (which is empty after trimming) is NOT ignored — `on_join_app`
never trims, and `" "` is truthy in Python — so the presence registry changes
and a `user_list` broadcast carrying `" "` occurs. -/
theorem whitespace_username_is_registered :
    pyStrip " " = "" ∧
    on_join_app ⟨[], [], []⟩ "sid1" (some " ") ≠ ((⟨[], [], []⟩ : ChatState), []) ∧
    (on_join_app ⟨[], [], []⟩ "sid1" (some " ")).1.usernameToSid = [(" ", "sid1")] ∧
    (on_join_app ⟨[], [], []⟩ "sid1" (some " ")).2 = [Event.userList [" "]] := by
  refine ⟨by decide, by decide, by decide, by decide⟩

/-- Claim C4, amended: only a register event whose username is missing or is
the empty string is ignored (registry unchanged, no broadcast); usernames are
not trimmed, so a whitespace-only username is registered. -/
theorem falsy_username_register_ignored (s : ChatState) (sid : String)
    (u : Option String) (h : u = none ∨ u = some "") :
    on_join_app s sid u = (s, []) := by
  rcases h with h | h <;> subst h <;> simp [on_join_app]

/-- Claim C4 (amended), witness: the empty-string username at concrete inputs. -/
theorem falsy_username_register_ignored_witness :
    ((some "" : Option String) = none ∨ (some "" : Option String) = some "") ∧
    on_join_app ⟨[], [], []⟩ "conn7" (some "") = ((⟨[], [], []⟩ : ChatState), []) :=
  ⟨Or.inr rfl, falsy_username_register_ignored ⟨[], [], []⟩ "conn7" (some "") (Or.inr rfl)⟩

/-- Claim C5: the page operation returns at most `limit` messages of the
requested room, each strictly older than a supplied well-formed `before`
timestamp (otherwise the most recent `limit` messages), ordered oldest-first,
and equal to the newest-first query result reversed. -/
theorem api_messages_page_contract (parseIso : String → Option Nat) (msgs : List Msg)
    (room : String) (limit : Nat) (b : String) (t : Nat)
    (hb : b ≠ "") (ht : parseIso b = some t) :
    (api_messages parseIso msgs room limit (some b)).length ≤ limit ∧
    (∀ m ∈ api_messages parseIso msgs room limit (some b), m.room = room ∧ m.timestamp < t) ∧
    List.Pairwise (fun m1 m2 : Msg => m1.timestamp ≤ m2.timestamp)
      (api_messages parseIso msgs room limit (some b)) ∧
    api_messages parseIso msgs room limit (some b)
      = ((newestFirst ((msgs.filter (fun m => m.room = room)).filter
          (fun m => m.timestamp < t))).take limit).reverse ∧
    (api_messages parseIso msgs room limit none).length ≤ limit ∧
    (∀ m ∈ api_messages parseIso msgs room limit none, m.room = room) ∧
    List.Pairwise (fun m1 m2 : Msg => m1.timestamp ≤ m2.timestamp)
      (api_messages parseIso msgs room limit none) ∧
    api_messages parseIso msgs room limit none
      = ((newestFirst (msgs.filter (fun m => m.room = room))).take limit).reverse := by
  have heq : api_messages parseIso msgs room limit (some b)
      = ((newestFirst ((msgs.filter (fun m => m.room = room)).filter
          (fun m => m.timestamp < t))).take limit).reverse := by
    simp [api_messages, hb, ht]
  have hnone : api_messages parseIso msgs room limit none
      = ((newestFirst (msgs.filter (fun m => m.room = room))).take limit).reverse := rfl
  refine ⟨?_, ?_, ?_, heq, ?_, ?_, ?_, hnone⟩
  · rw [heq]
    simp [List.length_reverse, List.length_take]
  · intro m hm
    rw [heq, List.mem_reverse] at hm
    have hm2 := (List.mem_insertionSort _).mp (List.mem_of_mem_take hm)
    simp only [List.mem_filter, decide_eq_true_eq] at hm2
    exact ⟨hm2.1.2, hm2.2⟩
  · rw [heq, List.pairwise_reverse]
    exact List.Pairwise.sublist (List.take_sublist _ _) (pairwise_newestFirst _)
  · rw [hnone]
    simp [List.length_reverse, List.length_take]
  · intro m hm
    rw [hnone, List.mem_reverse] at hm
    have hm2 := (List.mem_insertionSort _).mp (List.mem_of_mem_take hm)
    simp only [List.mem_filter, decide_eq_true_eq] at hm2
    exact hm2.2
  · rw [hnone, List.pairwise_reverse]
    exact List.Pairwise.sublist (List.take_sublist _ _) (pairwise_newestFirst _)

/-- Claim C5, witness: the page contract evaluated on the sample table with
limit 2 and the parseable bound `"T5"`. -/
theorem api_messages_page_contract_witness :
    ("T5" ≠ "" ∧ demoParse "T5" = some 5) ∧
    ((api_messages demoParse demoMsgs "general" 2 (some "T5")).length ≤ 2 ∧
     (∀ m ∈ api_messages demoParse demoMsgs "general" 2 (some "T5"),
        m.room = "general" ∧ m.timestamp < 5) ∧
     List.Pairwise (fun m1 m2 : Msg => m1.timestamp ≤ m2.timestamp)
       (api_messages demoParse demoMsgs "general" 2 (some "T5")) ∧
     api_messages demoParse demoMsgs "general" 2 (some "T5")
       = ((newestFirst ((demoMsgs.filter (fun m => m.room = "general")).filter
           (fun m => m.timestamp < 5))).take 2).reverse ∧
     (api_messages demoParse demoMsgs "general" 2 none).length ≤ 2 ∧
     (∀ m ∈ api_messages demoParse demoMsgs "general" 2 none, m.room = "general") ∧
     List.Pairwise (fun m1 m2 : Msg => m1.timestamp ≤ m2.timestamp)
       (api_messages demoParse demoMsgs "general" 2 none) ∧
     api_messages demoParse demoMsgs "general" 2 none
       = ((newestFirst (demoMsgs.filter (fun m => m.room = "general"))).take 2).reverse) :=
  ⟨⟨by decide, by decide⟩,
   api_messages_page_contract demoParse demoMsgs "general" 2 "T5" 5 (by decide) (by decide)⟩

/-- Claim C6: ghost-user edge case.  If connection `c` registers `u1` and then
a different `u2`, after `c` disconnects only `u2` is removed from the user
list: `u1` is still listed, its reverse entry still points at `c`, yet `c`
has no forward mapping any more (no live connection maps to `u1`). -/
theorem stale_username_survives_disconnect (s : ChatState) (c u1 u2 : String)
    (h12 : u1 ≠ u2) (h1 : u1 ≠ "") (h2 : u2 ≠ "") :
    u1 ∈ list_usernames
      (on_disconnect (on_join_app (on_join_app s c (some u1)).1 c (some u2)).1 c).1 ∧
    u2 ∉ list_usernames
      (on_disconnect (on_join_app (on_join_app s c (some u1)).1 c (some u2)).1 c).1 ∧
    (∀ v, v ∈ list_usernames
        (on_disconnect (on_join_app (on_join_app s c (some u1)).1 c (some u2)).1 c).1 ↔
      v ∈ list_usernames (on_join_app (on_join_app s c (some u1)).1 c (some u2)).1 ∧
        v ≠ u2) ∧
    dictGet (on_disconnect (on_join_app (on_join_app s c (some u1)).1 c
        (some u2)).1 c).1.usernameToSid u1 = some c ∧
    dictGet (on_disconnect (on_join_app (on_join_app s c (some u1)).1 c
        (some u2)).1 c).1.activeUsers c = none := by
  have hst : (on_join_app (on_join_app s c (some u1)).1 c (some u2)).1
      = { s with activeUsers := dictInsert (dictInsert s.activeUsers c u1) c u2,
                 usernameToSid := dictInsert (dictInsert s.usernameToSid u1 c) u2 c } := by
    simp [on_join_app, h1, h2]
  have hgA : dictGet (dictInsert (dictInsert s.activeUsers c u1) c u2) c = some u2 :=
    dictGet_insert_self _ _ _
  have hgR : dictGet (dictInsert (dictInsert s.usernameToSid u1 c) u2 c) u2 = some c :=
    dictGet_insert_self _ _ _
  have hd : (on_disconnect (on_join_app (on_join_app s c (some u1)).1 c (some u2)).1 c).1
      = { activeUsers := dictRemove (dictInsert (dictInsert s.activeUsers c u1) c u2) c,
          usernameToSid := dictRemove (dictInsert (dictInsert s.usernameToSid u1 c) u2 c) u2,
          rooms := leave_all s.rooms c } := by
    rw [hst]
    simp [on_disconnect, hgA, hgR, h2]
  have hgR1 : dictGet (dictRemove (dictInsert (dictInsert s.usernameToSid u1 c) u2 c) u2) u1
      = some c := by
    rw [dictGet_remove_ne _ h12, dictGet_insert_ne _ c h12, dictGet_insert_self]
  refine ⟨?_, ?_, ?_, ?_, ?_⟩
  · rw [list_usernames, hd]
    exact mem_sortedUsernames.mpr (mem_dictKeys_of_get hgR1)
  · rw [list_usernames, hd]
    intro hmem
    have hh := (mem_dictKeys_remove _ _ _).mp (mem_sortedUsernames.mp hmem)
    exact hh.2 rfl
  · intro v
    rw [list_usernames, list_usernames, hd, hst]
    simp only [mem_sortedUsernames]
    exact mem_dictKeys_remove _ _ _
  · rw [hd]
    exact hgR1
  · rw [hd]
    exact dictGet_remove_self _ _

/-- Claim C6, witness: `"bob"` then `"carol"` on one connection; after the
disconnect, `"bob"` is still listed. -/
theorem stale_username_survives_disconnect_witness :
    ("bob" ≠ "carol" ∧ "bob" ≠ "" ∧ "carol" ≠ "") ∧
    "bob" ∈ list_usernames
      (on_disconnect (on_join_app (on_join_app ⟨[], [], []⟩ "c9" (some "bob")).1
        "c9" (some "carol")).1 "c9").1 :=
  ⟨⟨by decide, by decide, by decide⟩,
   (stale_username_survives_disconnect ⟨[], [], []⟩ "c9" "bob" "carol"
     (by decide) (by decide) (by decide)).1⟩

/-- Claim C7: a send event whose text strips to the empty string is ignored:
nothing is appended to the store and nothing is broadcast. -/
theorem blank_text_send_ignored (store : Store) (storeOk : Bool) (now : Nat)
    (dataRoom dataText dataSender : Option String)
    (h : pyStrip (dataText.getD "") = "") :
    on_send_message store storeOk now dataRoom dataText dataSender = (store, []) := by
  unfold on_send_message
  cases dataRoom <;> cases dataSender <;> simp [h]

/-- Claim C7, witness: a whitespace-only text on an available store. -/
theorem blank_text_send_ignored_witness :
    pyStrip ((some "   " : Option String).getD "") = "" ∧
    on_send_message ⟨[], 1⟩ true 5 (some "general") (some "   ") (some "alice")
      = ((⟨[], 1⟩ : Store), []) :=
  ⟨by decide,
   blank_text_send_ignored ⟨[], 1⟩ true 5 (some "general") (some "   ") (some "alice")
     (by decide)⟩

/-- Claim C8: direct-message room naming is commutative — the room name for
`(a, b)` is the identical string to the room name for `(b, a)`. -/
theorem direct_room_comm (a b : String) : direct_room a b = direct_room b a := by
  unfold direct_room
  by_cases h1 : pyLe a b = true
  · by_cases h2 : pyLe b a = true
    · have hd : a.data = b.data :=
        eq_of_pyLtChars_false
          (by simpa [pyLe] using h2) (by simpa [pyLe] using h1)
      have hab : a = b := by
        cases a; cases b
        simp only at hd
        rw [hd]
      rw [hab]
    · simp [h1, h2]
  · have h2 : pyLe b a = true := pyLe_of_not_pyLe h1
    simp [h1, h2]

/-- Claim C9: a typing event with room and sender present is delivered to
every member of the room except the emitting connection itself, and the
emitting connection receives nothing, even when it is a member. -/
theorem typing_excludes_emitting_connection (s : ChatState) (sid room sender : String)
    (flag : Bool) (hr : room ≠ "") (hs : sender ≠ "") :
    (∀ e, (sid, e) ∉ on_typing s sid (some room) (some sender) flag) ∧
    ∀ m ∈ members_of s room, m ≠ sid →
      (m, Event.typing sender flag) ∈ on_typing s sid (some room) (some sender) flag := by
  constructor
  · intro e hmem
    simp only [on_typing, if_pos (And.intro hr hs), List.mem_map, List.mem_filter] at hmem
    rcases hmem with ⟨c, ⟨hc1, hc2⟩, hc3⟩
    have hcs : c = sid := congrArg Prod.fst hc3
    simp [hcs] at hc2
  · intro m hm hne
    simp only [on_typing, if_pos (And.intro hr hs), List.mem_map]
    exact ⟨m, by simp [List.mem_filter, hm, hne], rfl⟩

/-- Claim C9, witness: three members in `"general"`, `"sidB"` typing. -/
theorem typing_excludes_emitting_connection_witness :
    ("general" ≠ "" ∧ "bob" ≠ "") ∧
    ((∀ e, ("sidB", e) ∉ on_typing ⟨[], [], [("general", ["sidA", "sidB", "sidC"])]⟩
        "sidB" (some "general") (some "bob") true) ∧
      ∀ m ∈ members_of ⟨[], [], [("general", ["sidA", "sidB", "sidC"])]⟩ "general",
        m ≠ "sidB" →
        (m, Event.typing "bob" true) ∈
          on_typing ⟨[], [], [("general", ["sidA", "sidB", "sidC"])]⟩
            "sidB" (some "general") (some "bob") true) :=
  ⟨⟨by decide, by decide⟩,
   typing_excludes_emitting_connection ⟨[], [], [("general", ["sidA", "sidB", "sidC"])]⟩
     "sidB" "general" "bob" true (by decide) (by decide)⟩

/-- Claim C10: a page request whose `before` parameter does not parse as an
ISO-8601 timestamp does not fail; the filter is silently ignored and the
response equals the response with `before` absent. -/
theorem unparseable_before_filter_ignored (parseIso : String → Option Nat)
    (msgs : List Msg) (room : String) (limit : Nat) (b : String)
    (h : parseIso b = none) :
    api_messages parseIso msgs room limit (some b)
      = api_messages parseIso msgs room limit none := by
  unfold api_messages
  by_cases hb : b = "" <;> simp [hb, h]

/-- Claim C10, witness: a malformed bound on the sample table. -/
theorem unparseable_before_filter_ignored_witness :
    demoParse "2024-99-99" = none ∧
    api_messages demoParse demoMsgs "general" 50 (some "2024-99-99")
      = api_messages demoParse demoMsgs "general" 50 none :=
  ⟨by decide,
   unparseable_before_filter_ignored demoParse demoMsgs "general" 50 "2024-99-99"
     (by decide)⟩

end FlaskChat
